import Mathlib

/-!
Verification development for the question-generation / answer-validation
service in `home.py`.

Python strings are modelled as `List Char`.  The two model-inference
pipelines (`generator`, `qa_pipeline`) and the PDF parser (`fitz`) are
opaque external collaborators; they are modelled as injected functions, with
`Except Unit` capturing "the call may raise".  Floats are modelled as exact
rationals (`ℚ`).  The fuzzy matching used by `is_answer_correct` is
`difflib.SequenceMatcher(None, a, b).ratio()` from the CPython standard
library; it is embedded below (`findLongestMatch`, `matchingBlocks`,
`ratioQ`) following the CPython source, with `isjunk = None` (so the junk
set is empty and the two junk-extension loops of `find_longest_match` are
no-ops, which is noted where they are omitted) and `autojunk = True`
(the "popular element" heuristic for sequences of length ≥ 200).
-/

/-- Python `str.strip()` whitespace test, restricted to the ASCII whitespace
characters (the only whitespace that can occur in the places it is used
on already-filtered text; Unicode-only whitespace is not modelled). -/
def pyIsSpace (c : Char) : Bool :=
  decide (c = ' ' ∨ c = '\t' ∨ c = '\n' ∨ c = '\x0b' ∨ c = '\x0c' ∨ c = '\r')

/-- Python `str.strip()`: drop leading and trailing whitespace. -/
def pyStrip (l : List Char) : List Char :=
  ((l.dropWhile pyIsSpace).reverse.dropWhile pyIsSpace).reverse

/-- The character class `[a-zA-Z0-9 ]` of the regex in `clean_text`. -/
def keepAlnumSpace (c : Char) : Bool :=
  decide (('a' ≤ c ∧ c ≤ 'z') ∨ ('A' ≤ c ∧ c ≤ 'Z') ∨ ('0' ≤ c ∧ c ≤ '9') ∨ c = ' ')

/-- `home.py` line 115: `clean_text`:
`re.sub(r'[^a-zA-Z0-9 ]', '', text.lower()).strip()`.
`str.lower` is modelled by ASCII lowercasing (`Char.toLower`); the regex
substitution deleting every character outside `[a-zA-Z0-9 ]` is the filter. -/
def clean_text (text : List Char) : List Char :=
  pyStrip ((text.map Char.toLower).filter keepAlnumSpace)

/-! ## difflib.SequenceMatcher (CPython), with isjunk = None -/

/-- `SequenceMatcher.__chain_b` autojunk heuristic: an element of `b` is
"popular" when `len(b) >= 200` and it occurs more than `len(b) // 100 + 1`
times; popular elements are deleted from `b2j`. -/
def bpopular (b : List Char) (c : Char) : Bool :=
  decide (200 ≤ b.length) && decide (b.length / 100 + 1 < b.count c)

/-- `b2j[c]`: the ascending list of positions of `c` in `b`, with popular
elements purged (`__chain_b`); with `isjunk = None` the junk purge is empty. -/
def b2jList (b : List Char) (c : Char) : List Nat :=
  if bpopular b c then [] else (List.range b.length).filter (fun j => b.getD j ' ' == c)

/-- `j2len.get(j-1, 0) + 1` of the `find_longest_match` inner loop: the new
chain length at column `j` when the previous row's dictionary is `o`.
`j2len` dictionaries are modelled as total functions defaulting to 0;
Python's `j2len.get(-1, 0)` at `j = 0` is the `if j = 0 then 0` branch. -/
def kOf (o : Nat → Nat) (j : Nat) : Nat :=
  (if j = 0 then 0 else o (j - 1)) + 1

/-- Inner loop of `find_longest_match` over `b2j.get(a[i], [])`:
`k = newj2len[j] = j2len.get(j-1, 0) + 1; if k > bestsize: best = (i-k+1, j-k+1, k)`.
`oldLen` is the previous row's dictionary, read-only; the fourth state
component is `newj2len` being built. -/
def flmInner (oldLen : Nat → Nat) (i : Nat) :
    List Nat → Nat × Nat × Nat × (Nat → Nat) → Nat × Nat × Nat × (Nat → Nat)
  | [], st => st
  | j :: js, (bi, bj, bs, nj) =>
      let k := kOf oldLen j
      let nj' : Nat → Nat := fun x => if x = j then k else nj x
      if bs < k then flmInner oldLen i js (i + 1 - k, j + 1 - k, k, nj')
      else flmInner oldLen i js (bi, bj, bs, nj')

/-- One iteration of `for i in range(alo, ahi)` in `find_longest_match`.
Python `continue`s on `j < blo` and `break`s on `j >= bhi`; since the
position list is ascending this equals filtering to `blo ≤ j < bhi`. -/
def flmStep (a b : List Char) (blo bhi : Nat) :
    Nat × Nat × Nat × (Nat → Nat) → Nat → Nat × Nat × Nat × (Nat → Nat)
  | (bi, bj, bs, j2len), i =>
      flmInner j2len i
        ((b2jList b (a.getD i ' ')).filter (fun j => decide (blo ≤ j) && decide (j < bhi)))
        (bi, bj, bs, fun _ => 0)

/-- The dictionary-based main loop of `find_longest_match`, returning
`(besti, bestj, bestsize)` before the extension loops. -/
def flmMain (a b : List Char) (alo ahi blo bhi : Nat) : Nat × Nat × Nat :=
  match (List.range' alo (ahi - alo)).foldl (flmStep a b blo bhi) (alo, blo, 0, fun _ => 0) with
  | (bi, bj, bs, _) => (bi, bj, bs)

/-- First extension loop of `find_longest_match`:
`while besti > alo and bestj > blo and not isbjunk(b[bestj-1]) and a[besti-1] == b[bestj-1]`
(with `isjunk = None`, `isbjunk` is constantly false).  Structural recursion
on `besti`, which strictly decreases. -/
def extendLo (a b : List Char) (alo blo : Nat) : Nat → Nat → Nat → Nat × Nat × Nat
  | 0, bj, bs => (0, bj, bs)
  | bi + 1, bj, bs =>
      if decide (alo < bi + 1) && decide (blo < bj) && (a.getD bi ' ' == b.getD (bj - 1) ' ') then
        extendLo a b alo blo bi (bj - 1) (bs + 1)
      else (bi + 1, bj, bs)

/-- Second extension loop of `find_longest_match`:
`while besti+bestsize < ahi and bestj+bestsize < bhi and not isbjunk(...) and
a[besti+bestsize] == b[bestj+bestsize]: bestsize += 1`.  The first argument is
fuel: each iteration requires `besti + bestsize < ahi` and grows `bestsize`,
so `ahi` iterations always suffice and the loop is called with fuel `ahi`. -/
def extendHi (a b : List Char) (ahi bhi bi bj : Nat) : Nat → Nat → Nat
  | 0, bs => bs
  | fuel + 1, bs =>
      if decide (bi + bs < ahi) && decide (bj + bs < bhi)
          && (a.getD (bi + bs) ' ' == b.getD (bj + bs) ' ') then
        extendHi a b ahi bhi bi bj fuel (bs + 1)
      else bs

/-- `SequenceMatcher.find_longest_match(alo, ahi, blo, bhi)`.  With
`isjunk = None` the junk set `bjunk` is empty, so the third and fourth
extension loops (which require `isbjunk(...)` to be true) never run and are
omitted. -/
def findLongestMatch (a b : List Char) (alo ahi blo bhi : Nat) : Nat × Nat × Nat :=
  match flmMain a b alo ahi blo bhi with
  | (bi, bj, bs) =>
      match extendLo a b alo blo bi bj bs with
      | (bi', bj', bs') => (bi', bj', extendHi a b ahi bhi bi' bj' ahi bs')

/-- The `while queue` loop of `get_matching_blocks`.  Python pushes the left
subrange then the right subrange onto the end of `queue` and pops from the
end; here the head of the list is the top of that stack, so the right
subrange is consed last and popped first.  The first argument is fuel: the
ranges on the queue are pairwise disjoint subranges of `a × b`, so
`(len a + 1) * (len b + 1)` iterations always suffice. -/
def matchingBlocksAux (a b : List Char) :
    Nat → List (Nat × Nat × Nat × Nat) → List (Nat × Nat × Nat) → List (Nat × Nat × Nat)
  | 0, _, acc => acc
  | _ + 1, [], acc => acc
  | fuel + 1, (alo, ahi, blo, bhi) :: queue, acc =>
      match findLongestMatch a b alo ahi blo bhi with
      | (i, j, k) =>
          if k ≠ 0 then
            let queue1 := if decide (alo < i) && decide (blo < j) then
              (alo, i, blo, j) :: queue else queue
            let queue2 := if decide (i + k < ahi) && decide (j + k < bhi) then
              (i + k, ahi, j + k, bhi) :: queue1 else queue1
            matchingBlocksAux a b fuel queue2 (acc ++ [(i, j, k)])
          else matchingBlocksAux a b fuel queue acc

/-- `SequenceMatcher.get_matching_blocks`, up to the final sort, the merging
of adjacent blocks and the `(la, lb, 0)` sentinel, none of which change the
multiset of matched positions: `ratio` only uses the total size of the
blocks, which sorting leaves unchanged and merging preserves (a merge
replaces sizes `k1, k2` by `k1 + k2`, and the sentinel has size 0). -/
def matchingBlocks (a b : List Char) : List (Nat × Nat × Nat) :=
  matchingBlocksAux a b ((a.length + 1) * (b.length + 1)) [(0, a.length, 0, b.length)] []

/-- `matches = sum(triple[-1] for triple in self.get_matching_blocks())`. -/
def matchTotal (a b : List Char) : Nat :=
  ((matchingBlocks a b).map (fun t => t.2.2)).sum

/-- `SequenceMatcher.ratio()` = `_calculate_ratio(matches, len(a) + len(b))`:
`2.0 * matches / length` when `length` is nonzero, else `1.0`.  The float
arithmetic is modelled exactly in `ℚ`. -/
def ratioQ (a b : List Char) : ℚ :=
  if a.length + b.length = 0 then 1
  else 2 * (matchTotal a b : ℚ) / ((a.length : ℚ) + (b.length : ℚ))

/-- `home.py` line 119: `is_answer_correct(user_answer, correct_answer,
threshold)`: clean both strings, compare their `SequenceMatcher` ratio with
the threshold (`similarity >= threshold`).  The call sites use the default
`threshold = 0.8`, i.e. `4/5`. -/
def is_answer_correct (user_answer correct_answer : List Char) (threshold : ℚ) : Bool :=
  decide (threshold ≤ ratioQ (clean_text user_answer) (clean_text correct_answer))

/-! ## HTTP error model

`HTTPException(status_code, detail)` is modelled as `Nat × Detail`, with
`Detail` an enumeration of the detail strings occurring in `home.py`.
Crucially, `fastapi.HTTPException` is a subclass of `Exception`, so a
blanket `except Exception` catches it; the two `try/except` blocks in the
source therefore re-wrap the `HTTPException`s raised inside them. -/

/-- The `detail` strings of the `HTTPException`s raised in `home.py`.
`processing s d` is `"Error processing PDF: {str(e)}"` where `e` was the
`HTTPException` with status `s` and detail `d` (line 53); `processingOther`
is the same wrapper around a non-HTTP exception (a parser/read error).
`aiValidationWrapped s d` is `"AI validation error: {str(e)}"` around an
inner `HTTPException` (line 145), `aiValidationOracle` the same around a
`qa_pipeline` exception. -/
inductive Detail where
  | invalidFormat          -- "Uploaded file is not a valid PDF."
  | emptyDocument          -- "PDF has no pages."
  | noExtractableText      -- "No extractable text found in PDF."
  | processing (innerStatus : Nat) (inner : Detail)
  | processingOther
  | noTextExtracted        -- "No text extracted from PDF."
  | aiGenerationError      -- "AI generation error: {str(e)}"
  | failedToGenerate       -- "Failed to generate valid questions."
  | invalidInput           -- "Invalid input: question, answer, and PDF file are required."
  | noAnswerFound          -- "No valid answer found in the context."
  | aiValidationWrapped (innerStatus : Nat) (inner : Detail)
  | aiValidationOracle
  deriving DecidableEq, Repr

/-- FastAPI/HTTP client-error status class (4xx), used to state which
failures surface as "bad input" rather than "internal failure". -/
def isClientError (status : Nat) : Bool :=
  decide (400 ≤ status) && decide (status < 500)

/-! ## Text extractor (`extract_text_from_pdf`, lines 34-53) -/

/-- `"\n".join(page.get_text("text") for page in doc)`. -/
def joinPages (pages : List (List Char)) : List Char :=
  List.intercalate ['\n'] pages

/-- The `try` block of `extract_text_from_pdf` (lines 36-51).  `pages` is the
per-page text produced by the external PDF parser (`fitz`); the filename
check happens before the bytes are even read, so the block is a function of
the filename and the parsed pages only.  The local `text` variable of the
source (`"\n".join(...)`) is inlined as `joinPages pages`. -/
def extractTryBody (filename : List Char) (pages : List (List Char)) :
    Except (Nat × Detail) (List Char) :=
  if !(['.', 'p', 'd', 'f'].isSuffixOf filename) then
    Except.error (400, Detail.invalidFormat)
  else if pages.length = 0 then
    Except.error (400, Detail.emptyDocument)
  else if pyStrip (joinPages pages) = [] then
    Except.error (400, Detail.noExtractableText)
  else Except.ok (pyStrip ((joinPages pages).take 5000))

/-- `home.py` line 34: `extract_text_from_pdf`.  The `except Exception`
clause (line 52) catches *everything*, including the `HTTPException`s raised
by the `try` block itself, and re-raises
`HTTPException(500, "Error processing PDF: " + str(e))`. -/
def extract_text_from_pdf (filename : List Char) (pages : List (List Char)) :
    Except (Nat × Detail) (List Char) :=
  match extractTryBody filename pages with
  | Except.ok t => Except.ok t
  | Except.error (s, d) => Except.error (500, Detail.processing s d)

/-! ## Chunker and question synthesizer (`generate_questions`, lines 86-113) -/

/-- `home.py` line 94:
`chunks = [text[i:i+500] for i in range(0, len(text), 500)][:5]`.
`range(0, L, 500)` has `⌈L/500⌉ = (L + 499) / 500` elements. -/
def chunk_text (text : List Char) : List (List Char) :=
  ((List.range' 0 ((text.length + 499) / 500) 500).map
    (fun i => (text.drop i).take 500)).take 5

/-- `home.py` line 56: `clean_generated_text`: strip, then keep the text only
if it ends with `'?'`, else return the empty string. -/
def clean_generated_text (text : List Char) : List Char :=
  let t := pyStrip text
  if t.getLast? = some '?' then t else []

/-- `ANSWER_TYPES = ["MCQ", "Sí/No", "Respuesta corta"]` (line 31).
`generate_answer_type` picks one of these uniformly at random; the random
choice is injected as an oracle (`pick` below), whose codomain being this
enumeration captures that `random.choice` always returns a member. -/
inductive AnswerType where
  | mcq              -- "MCQ"
  | siNo             -- "Sí/No"
  | respuestaCorta   -- "Respuesta corta"
  deriving DecidableEq, Repr

/-- `home.py` line 67: `generate_possible_answers`.  `gen1` models
`generator(prompt, max_length=50, num_return_sequences=1, do_sample=True)[0]["generated_text"]`:
one oracle call returning one string or raising.  The whole body is inside
`try`; any oracle exception yields the placeholder list
`["No se pudo generar respuesta"]`.  The trailing `return []` of the source
is unreachable because `answer_type` always is one of the three members. -/
def generate_possible_answers (question : List Char) (answer_type : AnswerType)
    (gen1 : List Char → Except Unit (List Char)) : List (List Char) :=
  let body : Except Unit (List (List Char)) :=
    match answer_type with
    | AnswerType.mcq =>
        match gen1 ("Provide a correct answer to: ".toList ++ question) with
        | Except.error e => Except.error e
        | Except.ok a =>
            match gen1 ("Provide a wrong answer to: ".toList ++ question) with
            | Except.error e => Except.error e
            | Except.ok b =>
                match gen1 ("Provide another wrong answer to: ".toList ++ question) with
                | Except.error e => Except.error e
                | Except.ok c =>
                    match gen1 ("Provide one more wrong answer to: ".toList ++ question) with
                    | Except.error e => Except.error e
                    | Except.ok d => Except.ok [a, b, c, d]
    | AnswerType.siNo => Except.ok ["Sí".toList, "No".toList]
    | AnswerType.respuestaCorta =>
        match gen1 ("Provide a short answer to: ".toList ++ question) with
        | Except.error e => Except.error e
        | Except.ok a => Except.ok [a]
  match body with
  | Except.ok l => l
  | Except.error _ => ["No se pudo generar respuesta".toList]

/-- One element of the `questions` list built on line 106:
`{"question": [clean_q], "type": [answer_type], "answers": possible_answers}`
(the `question` and `type` values are singleton lists in the source). -/
structure QRecord where
  question : List (List Char)
  type : List AnswerType
  answers : List (List Char)
  deriving DecidableEq, Repr

/-- The chunk prompt of line 98: `f"Generate a clear and structured question
based on the following text with {difficulty} difficulty: {chunk}"`. -/
def questionPrompt (difficulty chunk : List Char) : List Char :=
  "Generate a clear and structured question based on the following text with ".toList
    ++ difficulty ++ " difficulty: ".toList ++ chunk

/-- The `for q in generated:` loop body (lines 101-106): clean each sample,
and for the accepted ones draw an answer type (the `cnt`-th call of
`random.choice`, modelled by the injected `pick`) and build the record.
Returns the updated random-call counter and accumulator. -/
def processSamples (pick : Nat → AnswerType) (gen1 : List Char → Except Unit (List Char)) :
    List (List Char) → Nat → List QRecord → Nat × List QRecord
  | [], cnt, acc => (cnt, acc)
  | g :: gs, cnt, acc =>
      let clean_q := clean_generated_text g
      if clean_q ≠ [] then
        let answer_type := pick cnt
        let possible_answers := generate_possible_answers clean_q answer_type gen1
        processSamples pick gen1 gs (cnt + 1)
          (acc ++ [⟨[clean_q], [answer_type], possible_answers⟩])
      else processSamples pick gen1 gs cnt acc

/-- The `for chunk in chunks:` loop (lines 97-108).  `gen2` models
`generator(prompt, max_length=128, num_return_sequences=2, do_sample=True)`:
one call returning a list of samples or raising; an exception here aborts
the whole request with `HTTPException(500, "AI generation error: ...")`.
Inside the `try`, only the generator call can raise: `clean_generated_text`,
`random.choice` and `generate_possible_answers` (which has its own
`try/except`) never do. -/
def questionsLoop (difficulty : List Char) (gen2 : List Char → Except Unit (List (List Char)))
    (gen1 : List Char → Except Unit (List Char)) (pick : Nat → AnswerType) :
    List (List Char) → Nat → List QRecord → Except (Nat × Detail) (List QRecord)
  | [], _, acc => Except.ok acc
  | chunk :: chunks, cnt, acc =>
      match gen2 (questionPrompt difficulty chunk) with
      | Except.error _ => Except.error (500, Detail.aiGenerationError)
      | Except.ok generated =>
          match processSamples pick gen1 generated cnt acc with
          | (cnt', acc') => questionsLoop difficulty gen2 gen1 pick chunks cnt' acc'

/-- Lines 90-113 of the `generate_questions` handler, from the
`if not text` check to the response: the part of the operation downstream of
text extraction. -/
def generate_questions_core (text difficulty : List Char)
    (gen2 : List Char → Except Unit (List (List Char)))
    (gen1 : List Char → Except Unit (List Char)) (pick : Nat → AnswerType) :
    Except (Nat × Detail) (List QRecord) :=
  if text = [] then Except.error (400, Detail.noTextExtracted)
  else
    match questionsLoop difficulty gen2 gen1 pick (chunk_text text) 0 [] with
    | Except.error e => Except.error e
    | Except.ok questions =>
        if questions = [] then Except.error (500, Detail.failedToGenerate)
        else Except.ok (questions.take 10)

/-- `home.py` line 86: the full `generate_questions` endpoint:
extract text from the uploaded PDF, then run the generation pipeline. -/
def generate_questions (filename : List Char) (pages : List (List Char))
    (difficulty : List Char) (gen2 : List Char → Except Unit (List (List Char)))
    (gen1 : List Char → Except Unit (List Char)) (pick : Nat → AnswerType) :
    Except (Nat × Detail) (List QRecord) :=
  match extract_text_from_pdf filename pages with
  | Except.error e => Except.error e
  | Except.ok text => generate_questions_core text difficulty gen2 gen1 pick

/-! ## Answer validator (`validate_answers`, lines 126-147) -/

/-- The response dict of line 147. -/
structure ValidationResult where
  question : List Char
  user_answer : List Char
  correct_answer : List Char
  is_correct : List Char   -- "yes" / "no"
  deriving DecidableEq, Repr

/-- `home.py` line 126: `validate_answers`.  `qa` models
`qa_pipeline(question=..., context=...)` followed by
`response.get("answer", "")`: it returns the answer string (possibly empty)
or raises.  The `if not ... raise 400` check of line 131 is *outside* the
`try`, so it really surfaces as 400; the `raise HTTPException(400, "No valid
answer found...")` of line 140 is *inside* the `try`, so the
`except Exception` clause of line 143 re-wraps it into
`HTTPException(500, "AI validation error: 400: No valid answer found...")`. -/
def validate_answers (filename : List Char) (pages : List (List Char))
    (question user_answer : List Char)
    (qa : List Char → List Char → Except Unit (List Char)) :
    Except (Nat × Detail) ValidationResult :=
  match extract_text_from_pdf filename pages with
  | Except.error e => Except.error e
  | Except.ok context =>
      if question = [] ∨ user_answer = [] ∨ context = [] then
        Except.error (400, Detail.invalidInput)
      else
        -- the `try` body; `Except.error none` is an exception raised by the
        -- qa pipeline itself, `Except.error (some e)` an `HTTPException`
        -- raised inside the `try`
        let body : Except (Option (Nat × Detail)) ValidationResult :=
          match qa question context with
          | Except.error _ => Except.error none
          | Except.ok correct_answer =>
              if correct_answer = [] then Except.error (some (400, Detail.noAnswerFound))
              else
                Except.ok ⟨question, user_answer, correct_answer,
                  if is_answer_correct user_answer correct_answer (4/5) then
                    "yes".toList else "no".toList⟩
        match body with
        | Except.ok r => Except.ok r
        | Except.error none => Except.error (500, Detail.aiValidationOracle)
        | Except.error (some (s, d)) => Except.error (500, Detail.aiValidationWrapped s d)

/-! ## Helper definitions used by the proofs -/

/-- Matching-chain length for comparing a string `s` with itself: `selfR s i j`
is the value `j2len[j]` holds after row `i` of the `find_longest_match` main
loop on `(s, s)` over the full range, i.e. the length of the longest chain of
positions `(i-t, j-t)` with equal, non-popular characters.  `selfCond s i j`
is the condition for `(i, j)` to link: both indices in range, equal
characters, and the (`b`-side) character not purged from `b2j`. -/
def selfCond (s : List Char) (i j : Nat) : Prop :=
  i < s.length ∧ j < s.length ∧ s.getD i ' ' = s.getD j ' ' ∧
    bpopular s (s.getD j ' ') = false

instance selfCondDecidable (s : List Char) (i j : Nat) : Decidable (selfCond s i j) :=
  inferInstanceAs (Decidable (_ ∧ _ ∧ _ ∧ _))

/-- See `selfCond`. -/
def selfR (s : List Char) : Nat → Nat → Nat
  | 0, j => if selfCond s 0 j then 1 else 0
  | i + 1, 0 => if selfCond s (i + 1) 0 then 1 else 0
  | i + 1, j + 1 => if selfCond s (i + 1) (j + 1) then selfR s i j + 1 else 0

/-- The contents of the previous row's `j2len` dictionary before row `r`. -/
def prevR (s : List Char) : Nat → Nat → Nat
  | 0, _ => 0
  | r + 1, j => selfR s r j

/-- Invariant of the `find_longest_match` main loop on `(s, s)` over the full
range, after the rows `0, ..., r-1` have been processed: the best block found
so far is diagonal, fits in the processed rows, dominates every diagonal
chain seen so far, and `j2len` holds the previous row's chain lengths. -/
def rowInv (s : List Char) (r : Nat) : Nat × Nat × Nat × (Nat → Nat) → Prop
  | (bi, bj, bs, j2) =>
      bi = bj ∧ bi + bs ≤ r ∧ (∀ i' < r, selfR s i' i' ≤ bs) ∧
        ∀ j < s.length, j2 j = prevR s r j

/-- The invariant of the records accumulated by `generate_questions`: every
question string in the record ends with a question mark. -/
def recordOK (r : QRecord) : Prop :=
  ∀ q ∈ r.question, q.getLast? = some '?'


/-! ## C1, C4, C6, C7 (counterexample), C8, C9 -/

/-- C1: for every pair of strings, the validator declares the answer correct
exactly when the SequenceMatcher similarity ratio of the two normalized
strings (lowercase, keep only ASCII letters/digits/plain spaces, strip) is
at least the fixed 0.8 threshold used at the call site. -/
theorem C1_threshold_iff (user_answer correct_answer : List Char) :
    is_answer_correct user_answer correct_answer (4/5) = true ↔
      ratioQ (clean_text user_answer) (clean_text correct_answer) ≥ 4/5 := by
  simp [is_answer_correct, ge_iff_le]

/-- C4 (code bug evaluation): uploading a file whose name does not end in
".pdf" fails before the parsed pages are even looked at (the result does not
depend on them), and the error kind is InvalidFormat -- but the blanket
except-clause re-wraps the intended 400 into a 500, so it is NOT surfaced in
the client-error status class. -/
theorem C4_invalid_format_wrapped (pages pages' : List (List Char)) :
    extract_text_from_pdf "doc.txt".toList pages
        = Except.error (500, Detail.processing 400 Detail.invalidFormat) ∧
      extract_text_from_pdf "doc.txt".toList pages
        = extract_text_from_pdf "doc.txt".toList pages' ∧
      isClientError 500 = false :=
  ⟨rfl, rfl, rfl⟩

/-- C6 (amended): YesNo questions always get exactly ["Sí", "No"]; ShortAnswer
questions always get exactly 1 candidate answer (the generated one, or the
placeholder on oracle failure); MultipleChoice questions get exactly 4
candidate answers when all four oracle calls succeed, and otherwise degrade
to the single placeholder list. -/
theorem C6_answers_shape (question : List Char) (t : AnswerType)
    (gen1 : List Char → Except Unit (List Char)) :
    (t = AnswerType.siNo →
      generate_possible_answers question t gen1 = ["Sí".toList, "No".toList]) ∧
    (t = AnswerType.respuestaCorta →
      (generate_possible_answers question t gen1).length = 1) ∧
    (t = AnswerType.mcq →
      (generate_possible_answers question t gen1).length = 4 ∨
        generate_possible_answers question t gen1
          = ["No se pudo generar respuesta".toList]) := by
  refine ⟨?_, ?_, ?_⟩
  · rintro rfl; rfl
  · rintro rfl
    unfold generate_possible_answers
    rcases h : gen1 ("Provide a short answer to: ".toList ++ question) with e | a
    · rfl
    · rfl
  · rintro rfl
    unfold generate_possible_answers
    rcases h1 : gen1 ("Provide a correct answer to: ".toList ++ question) with e1 | a
    · exact Or.inr rfl
    rcases h2 : gen1 ("Provide a wrong answer to: ".toList ++ question) with e2 | b
    · exact Or.inr rfl
    rcases h3 : gen1 ("Provide another wrong answer to: ".toList ++ question) with e3 | c
    · exact Or.inr rfl
    rcases h4 : gen1 ("Provide one more wrong answer to: ".toList ++ question) with e4 | d
    · exact Or.inr rfl
    · exact Or.inl rfl

/-- C6 (witness): instantiating the shape theorem at a concrete YesNo call. -/
theorem C6_witness :
    generate_possible_answers "q".toList AnswerType.siNo (fun _ => Except.error ())
      = ["Sí".toList, "No".toList] :=
  (C6_answers_shape "q".toList AnswerType.siNo (fun _ => Except.error ())).1 rfl

/-- C6 (counterexample): when the candidate-answer oracle raises, a
MultipleChoice question gets the single placeholder list, not 4 answers --
refuting "a MultipleChoice question always has exactly 4 candidate answers". -/
theorem C6_counterexample :
    generate_possible_answers "q".toList AnswerType.mcq (fun _ => Except.error ())
        = ["No se pudo generar respuesta".toList] ∧
      decide ((generate_possible_answers "q".toList AnswerType.mcq
          (fun _ => Except.error ())).length = 4) = false :=
  ⟨rfl, by decide⟩

/-- C7 (counterexample): the SequenceMatcher ratio used by the validator is
not symmetric: on "BYRD" / "BRADY" it is 4/9 one way and 2/3 the other, so
the equality decides to false. -/
theorem C7_counterexample :
    decide (ratioQ "BYRD".toList "BRADY".toList
      = ratioQ "BRADY".toList "BYRD".toList) = false := by
  refine decide_eq_false ?_
  have h1 : matchTotal "BYRD".toList "BRADY".toList = 2 := by decide
  have h2 : matchTotal "BRADY".toList "BYRD".toList = 3 := by decide
  unfold ratioQ
  rw [h1, h2, show ("BYRD".toList).length = 4 from rfl,
    show ("BRADY".toList).length = 5 from rfl]
  norm_num

/-- C9: validation requires the question, the user answer and the extracted
context to be non-empty; if any is empty it fails with the 400 InvalidInput
error, before (and independently of) any question-answering oracle call. -/
theorem C9_invalid_input (filename : List Char) (pages : List (List Char))
    (question user_answer ctx : List Char)
    (qa qa' : List Char → List Char → Except Unit (List Char))
    (hex : extract_text_from_pdf filename pages = Except.ok ctx)
    (hempty : question = [] ∨ user_answer = [] ∨ ctx = []) :
    validate_answers filename pages question user_answer qa
        = Except.error (400, Detail.invalidInput) ∧
      validate_answers filename pages question user_answer qa
        = validate_answers filename pages question user_answer qa' := by
  have h : ∀ q0 : List Char → List Char → Except Unit (List Char),
      validate_answers filename pages question user_answer q0
        = Except.error (400, Detail.invalidInput) := by
    intro q0
    simp only [validate_answers, hex]
    rw [if_pos hempty]
  exact ⟨h qa, (h qa).trans (h qa').symm⟩

/-- C9 (witness): empty question with a well-formed upload gives 400
InvalidInput. -/
theorem C9_witness :
    validate_answers "a.pdf".toList ["x".toList] [] "y".toList
        (fun _ _ => Except.ok "z".toList)
      = Except.error (400, Detail.invalidInput) :=
  (C9_invalid_input "a.pdf".toList ["x".toList] [] "y".toList "x".toList
    (fun _ _ => Except.ok "z".toList) (fun _ _ => Except.error ()) rfl (Or.inl rfl)).1

/-! ## C8: zero accepted questions -/

theorem processSamples_none (pick : Nat → AnswerType)
    (gen1 : List Char → Except Unit (List Char)) :
    ∀ (outs : List (List Char)) (cnt : Nat) (acc : List QRecord),
      (∀ o ∈ outs, clean_generated_text o = []) →
      processSamples pick gen1 outs cnt acc = (cnt, acc) := by
  intro outs
  induction outs with
  | nil => intro cnt acc _; rfl
  | cons g gs ih =>
      intro cnt acc h
      have hg : clean_generated_text g = [] := h g (List.mem_cons_self g gs)
      simp only [processSamples, hg]
      rw [if_neg (by simp)]
      exact ih cnt acc (fun o ho => h o (List.mem_cons_of_mem g ho))

theorem questionsLoop_none (difficulty : List Char)
    (gen2 : List Char → Except Unit (List (List Char)))
    (gen1 : List Char → Except Unit (List Char)) (pick : Nat → AnswerType) :
    ∀ (chunks : List (List Char)) (cnt : Nat) (acc : List QRecord),
      (∀ chunk ∈ chunks, ∃ outs, gen2 (questionPrompt difficulty chunk) = Except.ok outs ∧
        ∀ o ∈ outs, clean_generated_text o = []) →
      questionsLoop difficulty gen2 gen1 pick chunks cnt acc = Except.ok acc := by
  intro chunks
  induction chunks with
  | nil => intro cnt acc _; rfl
  | cons c cs ih =>
      intro cnt acc h
      obtain ⟨outs, hok, hnone⟩ := h c (List.mem_cons_self c cs)
      simp only [questionsLoop, hok]
      rw [processSamples_none pick gen1 outs cnt acc hnone]
      exact ih cnt acc (fun chunk hc => h chunk (List.mem_cons_of_mem c hc))

/-- C8 (amended): when generation on a non-empty extracted text yields zero
accepted questions across all chunks, the operation fails with the
"Failed to generate valid questions." error -- but with status 500, i.e. in
the internal-failure category, not the client-error (bad input) category. -/
theorem C8_no_questions_is_internal (text difficulty : List Char)
    (gen2 : List Char → Except Unit (List (List Char)))
    (gen1 : List Char → Except Unit (List Char)) (pick : Nat → AnswerType)
    (htext : text ≠ [])
    (hnone : ∀ chunk ∈ chunk_text text, ∃ outs,
      gen2 (questionPrompt difficulty chunk) = Except.ok outs ∧
        ∀ o ∈ outs, clean_generated_text o = []) :
    generate_questions_core text difficulty gen2 gen1 pick
        = Except.error (500, Detail.failedToGenerate) ∧ isClientError 500 = false := by
  constructor
  · unfold generate_questions_core
    rw [if_neg htext,
      questionsLoop_none difficulty gen2 gen1 pick (chunk_text text) 0 [] hnone]
    rfl
  · rfl

/-- C8 (witness): a generator that returns no samples yields the 500 error. -/
theorem C8_witness :
    generate_questions_core "abc".toList "medium".toList
        (fun _ => Except.ok []) (fun _ => Except.ok []) (fun _ => AnswerType.mcq)
      = Except.error (500, Detail.failedToGenerate) :=
  (C8_no_questions_is_internal "abc".toList "medium".toList
    (fun _ => Except.ok []) (fun _ => Except.ok []) (fun _ => AnswerType.mcq)
    (by decide)
    (fun chunk _ => ⟨[], rfl, fun o ho => absurd ho (List.not_mem_nil o)⟩)).1

/-- C8 (counterexample): a run with zero accepted questions fails with
status 500, which is not in the client-error (bad input) class -- refuting
the claim that this failure is surfaced in the bad-input category. -/
theorem C8_counterexample :
    generate_questions_core "abc".toList "medium".toList
        (fun _ => Except.ok ["no question generated".toList]) (fun _ => Except.ok [])
        (fun _ => AnswerType.mcq)
      = Except.error (500, Detail.failedToGenerate) ∧ isClientError 500 = false :=
  ⟨rfl, rfl⟩

/-! ## C5: every returned question ends with a question mark -/

theorem clean_generated_text_ends (g : List Char)
    (h : clean_generated_text g ≠ []) :
    (clean_generated_text g).getLast? = some '?' := by
  unfold clean_generated_text at h ⊢
  by_cases hq : (pyStrip g).getLast? = some '?'
  · rw [if_pos hq]; exact hq
  · rw [if_neg hq] at h; exact absurd rfl h

theorem processSamples_ok (pick : Nat → AnswerType)
    (gen1 : List Char → Except Unit (List Char)) :
    ∀ (outs : List (List Char)) (cnt : Nat) (acc : List QRecord),
      (∀ r ∈ acc, recordOK r) →
      ∀ r ∈ (processSamples pick gen1 outs cnt acc).2, recordOK r := by
  intro outs
  induction outs with
  | nil => intro cnt acc hacc; exact hacc
  | cons g gs ih =>
      intro cnt acc hacc
      by_cases hg : clean_generated_text g ≠ []
      · simp only [processSamples]
        rw [if_pos hg]
        refine ih (cnt + 1) _ ?_
        intro r hr
        rcases List.mem_append.mp hr with h | h
        · exact hacc r h
        · rw [List.mem_singleton.mp h]
          intro q hq
          rw [List.mem_singleton.mp hq]
          exact clean_generated_text_ends g hg
      · simp only [processSamples]
        rw [if_neg hg]
        exact ih cnt acc hacc

theorem questionsLoop_ok (difficulty : List Char)
    (gen2 : List Char → Except Unit (List (List Char)))
    (gen1 : List Char → Except Unit (List Char)) (pick : Nat → AnswerType) :
    ∀ (chunks : List (List Char)) (cnt : Nat) (acc : List QRecord)
      (recs : List QRecord),
      (∀ r ∈ acc, recordOK r) →
      questionsLoop difficulty gen2 gen1 pick chunks cnt acc = Except.ok recs →
      ∀ r ∈ recs, recordOK r := by
  intro chunks
  induction chunks with
  | nil =>
      intro cnt acc recs hacc heq
      cases heq
      exact hacc
  | cons c cs ih =>
      intro cnt acc recs hacc heq
      rcases hg : gen2 (questionPrompt difficulty c) with e | generated
      · rw [questionsLoop, hg] at heq; cases heq
      · rw [questionsLoop, hg] at heq
        exact ih _ _ recs (processSamples_ok pick gen1 generated cnt acc hacc) heq

/-- C5: every question string in every record of a successful
generate-questions response ends with the question mark character. -/
theorem C5_questions_end_with_mark (filename : List Char) (pages : List (List Char))
    (difficulty : List Char) (gen2 : List Char → Except Unit (List (List Char)))
    (gen1 : List Char → Except Unit (List Char)) (pick : Nat → AnswerType)
    (recs : List QRecord)
    (h : generate_questions filename pages difficulty gen2 gen1 pick = Except.ok recs) :
    ∀ r ∈ recs, ∀ q ∈ r.question, q.getLast? = some '?' := by
  unfold generate_questions at h
  rcases hex : extract_text_from_pdf filename pages with e | text
  · rw [hex] at h; cases h
  rw [hex] at h
  have h2 : generate_questions_core text difficulty gen2 gen1 pick = Except.ok recs := h
  unfold generate_questions_core at h2
  by_cases htext : text = []
  · rw [if_pos htext] at h2; cases h2
  rw [if_neg htext] at h2
  rcases hloop : questionsLoop difficulty gen2 gen1 pick (chunk_text text) 0 [] with e | qs
  · rw [hloop] at h2; cases h2
  rw [hloop] at h2
  have h3 : (if qs = [] then
        (Except.error (500, Detail.failedToGenerate) : Except (Nat × Detail) (List QRecord))
      else Except.ok (qs.take 10)) = Except.ok recs := h2
  by_cases hqs : qs = []
  · rw [if_pos hqs] at h3; cases h3
  rw [if_neg hqs] at h3
  cases h3
  intro r hr
  exact questionsLoop_ok difficulty gen2 gen1 pick (chunk_text text) 0 [] qs
    (fun r hr => absurd hr (List.not_mem_nil r)) hloop r (List.mem_of_mem_take hr)

/-- C5 (witness): the concrete accepted question "Why?" ends with a mark. -/
theorem C5_witness : ("Why?".toList).getLast? = some '?' :=
  C5_questions_end_with_mark "a.pdf".toList ["hi".toList] "medium".toList
    (fun _ => Except.ok ["Why?".toList, "nope".toList]) (fun _ => Except.ok "ans".toList)
    (fun _ => AnswerType.siNo)
    [⟨["Why?".toList], [AnswerType.siNo], ["Sí".toList, "No".toList]⟩] rfl
    ⟨["Why?".toList], [AnswerType.siNo], ["Sí".toList, "No".toList]⟩ (by simp)
    "Why?".toList (by simp)

/-! ## C2: chunking -/

theorem chunk_join (text : List Char) :
    ∀ (k s : Nat),
      (((List.range' s k 500).map (fun i => (text.drop i).take 500)).flatten)
        = (text.drop s).take (500 * k) := by
  intro k
  induction k with
  | zero => intro s; simp
  | succ k ih =>
      intro s
      rw [List.range'_succ]
      simp only [List.map_cons, List.flatten_cons]
      rw [ih (s + 500)]
      rw [show text.drop (s + 500) = (text.drop s).drop 500 from (List.drop_drop 500 s text).symm]
      rw [← List.take_add]
      congr 1
      ring

theorem range'_take_chunks : ∀ (k m s : Nat),
    (List.range' s k 500).take m = List.range' s (min k m) 500 := by
  intro k
  induction k with
  | zero => intro m s; simp
  | succ k ih =>
      intro m s
      cases m with
      | zero => simp
      | succ m =>
          rw [List.range'_succ, List.take_succ_cons, ih m (s + 500),
            Nat.succ_min_succ, List.range'_succ]

/-- C2: chunking splits the text into `min(⌈L/500⌉, 5)` substrings of at most
500 characters each, in order and without overlap: their concatenation is
exactly the first `min(2500, L)` characters of the input (i.e. `take 2500`). -/
theorem C2_chunking (text : List Char) :
    (chunk_text text).length = min ((text.length + 499) / 500) 5 ∧
    (∀ c ∈ chunk_text text, c.length ≤ 500) ∧
    (chunk_text text).flatten = text.take 2500 := by
  refine ⟨?_, ?_, ?_⟩
  · unfold chunk_text
    rw [List.length_take, List.length_map, List.length_range']
    omega
  · intro c hc
    unfold chunk_text at hc
    obtain ⟨i, _, rfl⟩ := List.mem_map.mp (List.mem_of_mem_take hc)
    exact List.length_take_le 500 _
  · unfold chunk_text
    rw [← List.map_take, range'_take_chunks, chunk_join text _ 0, List.drop_zero]
    rcases le_or_lt ((text.length + 499) / 500) 5 with h | h
    · rw [min_eq_left h]
      have h1 : text.length ≤ 500 * ((text.length + 499) / 500) := by omega
      rw [List.take_of_length_le h1, List.take_of_length_le (by omega)]
    · rw [min_eq_right (le_of_lt h)]

/-- C2 (witness): the chunk list of a concrete 1200-character text. -/
theorem C2_witness : (chunk_text (List.replicate 1200 'x')).length
    = min (((List.replicate 1200 'x').length + 499) / 500) 5 :=
  (C2_chunking (List.replicate 1200 'x')).1

/-! ## C3: extraction bounds, trimming, and the empty-success hole -/

theorem dropWhile_length_le (p : Char → Bool) :
    ∀ l : List Char, (List.dropWhile p l).length ≤ l.length := by
  intro l
  induction l with
  | nil => exact le_refl 0
  | cons a t ih =>
      rw [List.dropWhile_cons]
      by_cases hp : p a = true
      · rw [if_pos hp]; exact le_trans ih (Nat.le_succ _)
      · rw [if_neg hp]

theorem head?_dropWhile (p : Char → Bool) :
    ∀ (l : List Char) (c : Char), (List.dropWhile p l).head? = some c → p c = false := by
  intro l
  induction l with
  | nil => intro c h; cases h
  | cons a t ih =>
      intro c h
      rw [List.dropWhile_cons] at h
      by_cases hp : p a = true
      · rw [if_pos hp] at h; exact ih c h
      · rw [if_neg hp] at h
        simp only [List.head?_cons, Option.some.injEq] at h
        subst h
        cases hpa : p a
        · rfl
        · exact absurd hpa hp

theorem pyStrip_length_le (l : List Char) : (pyStrip l).length ≤ l.length := by
  unfold pyStrip
  rw [List.length_reverse]
  exact le_trans (dropWhile_length_le pyIsSpace _)
    (le_trans (le_of_eq (List.length_reverse _)) (dropWhile_length_le pyIsSpace l))

theorem pyStrip_getLast (l : List Char) (c : Char)
    (h : (pyStrip l).getLast? = some c) : pyIsSpace c = false := by
  unfold pyStrip at h
  rw [List.getLast?_reverse] at h
  exact head?_dropWhile pyIsSpace _ c h

theorem pyStrip_head (l : List Char) (c : Char)
    (h : (pyStrip l).head? = some c) : pyIsSpace c = false := by
  have hm : l.dropWhile pyIsSpace = pyStrip l
      ++ (List.takeWhile pyIsSpace ((l.dropWhile pyIsSpace).reverse)).reverse := by
    unfold pyStrip
    rw [← List.reverse_append, List.takeWhile_append_dropWhile, List.reverse_reverse]
  refine head?_dropWhile pyIsSpace l c ?_
  rw [hm, List.head?_append, h]
  rfl

theorem dropWhile_replicate_append (p : Char → Bool) (c : Char) (hp : p c = true) :
    ∀ (n : Nat) (l : List Char),
      List.dropWhile p (List.replicate n c ++ l) = List.dropWhile p l := by
  intro n
  induction n with
  | zero => intro l; rfl
  | succ n ih =>
      intro l
      rw [List.replicate_succ, List.cons_append, List.dropWhile_cons, if_pos hp]
      exact ih l

theorem pyStrip_replicate_space (n : Nat) : pyStrip (List.replicate n ' ') = [] := by
  unfold pyStrip
  have h := dropWhile_replicate_append pyIsSpace ' ' (by decide) n []
  rw [List.append_nil] at h
  rw [h]
  rfl

theorem joinPages_single (l : List Char) : joinPages [l] = l := by
  simp [joinPages, List.intercalate]

/-- C3 (counterexample): a one-page PDF whose first 5000 characters are
spaces, followed by a letter, passes the emptiness check on the full text,
yet extraction returns the empty string as a success -- refuting "it never
returns an empty string as a success". -/
theorem C3_counterexample :
    extract_text_from_pdf "a.pdf".toList [List.replicate 5000 ' ' ++ ['a']]
      = Except.ok [] := by
  have c1 : ¬((!(['.', 'p', 'd', 'f'].isSuffixOf "a.pdf".toList)) = true) := by decide
  have c2 : ¬(([List.replicate 5000 ' ' ++ ['a']] : List (List Char)).length = 0) := by
    rw [List.length_cons]
    exact Nat.succ_ne_zero _
  have hjoin : joinPages [List.replicate 5000 ' ' ++ ['a']]
      = List.replicate 5000 ' ' ++ ['a'] := joinPages_single _
  have hstrip : pyStrip (List.replicate 5000 ' ' ++ ['a']) = ['a'] := by
    unfold pyStrip
    rw [dropWhile_replicate_append pyIsSpace ' ' (by decide) 5000 ['a']]
    rfl
  have htake : (List.replicate 5000 ' ' ++ ['a']).take 5000 = List.replicate 5000 ' ' := by
    rw [List.take_append_eq_append_take]
    rw [List.take_of_length_le (le_of_eq (List.length_replicate 5000 ' '))]
    rw [List.length_replicate]
    norm_num
  have hbody : extractTryBody "a.pdf".toList [List.replicate 5000 ' ' ++ ['a']]
      = Except.ok [] := by
    unfold extractTryBody
    rw [if_neg c1, if_neg c2, hjoin, hstrip]
    rw [if_neg (by decide : ¬(['a'] = ([] : List Char)))]
    rw [htake, pyStrip_replicate_space]
  unfold extract_text_from_pdf
  rw [hbody]

/-- C3 (amended): for a PDF-named upload with at least one parsed page,
extraction returns the truncated-and-stripped text, which has length at most
5000 and no leading or trailing whitespace, and raises the (500-wrapped)
NoExtractableText error when the full concatenated text is empty after
trimming -- but the returned success string can itself be empty when the
first 5000 characters of a non-blank text are all whitespace. -/
theorem C3_extraction_bounds (filename : List Char) (pages : List (List Char))
    (hpdf : ['.', 'p', 'd', 'f'].isSuffixOf filename = true) (hpages : pages ≠ []) :
    (pyStrip (joinPages pages) = [] →
      extract_text_from_pdf filename pages
        = Except.error (500, Detail.processing 400 Detail.noExtractableText)) ∧
    (pyStrip (joinPages pages) ≠ [] →
      extract_text_from_pdf filename pages
          = Except.ok (pyStrip ((joinPages pages).take 5000)) ∧
        (pyStrip ((joinPages pages).take 5000)).length ≤ 5000 ∧
        (∀ c, (pyStrip ((joinPages pages).take 5000)).head? = some c →
          pyIsSpace c = false) ∧
        (∀ c, (pyStrip ((joinPages pages).take 5000)).getLast? = some c →
          pyIsSpace c = false)) := by
  have c1 : ¬((!(['.', 'p', 'd', 'f'].isSuffixOf filename)) = true) := by
    rw [hpdf]; decide
  have c2 : ¬(pages.length = 0) := fun h => hpages (List.length_eq_zero.mp h)
  constructor
  · intro hempty
    have hbody : extractTryBody filename pages
        = Except.error (400, Detail.noExtractableText) := by
      unfold extractTryBody
      rw [if_neg c1, if_neg c2, if_pos hempty]
    unfold extract_text_from_pdf
    rw [hbody]
  · intro hne
    have hbody : extractTryBody filename pages
        = Except.ok (pyStrip ((joinPages pages).take 5000)) := by
      unfold extractTryBody
      rw [if_neg c1, if_neg c2, if_neg hne]
    refine ⟨?_, ?_, ?_, ?_⟩
    · unfold extract_text_from_pdf
      rw [hbody]
    · exact le_trans (pyStrip_length_le _) (List.length_take_le 5000 _)
    · intro c hc; exact pyStrip_head _ c hc
    · intro c hc; exact pyStrip_getLast _ c hc

/-- C3 (witness): a concrete well-formed upload, instantiating the success
branch of the bounds theorem. -/
theorem C3_witness :
    extract_text_from_pdf "a.pdf".toList ["hi".toList]
      = Except.ok (pyStrip ((joinPages ["hi".toList]).take 5000)) :=
  ((C3_extraction_bounds "a.pdf".toList ["hi".toList] (by decide) (by decide)).2
    (by decide)).1

/-! ## C10 and C7 (amended): the main-loop invariant on (s, s) -/

theorem selfCond_symm (s : List Char) (i j : Nat) :
    selfCond s i j ↔ selfCond s j i := by
  constructor
  · rintro ⟨hi, hj, he, hp⟩
    refine ⟨hj, hi, he.symm, ?_⟩
    rw [he]; exact hp
  · rintro ⟨hj, hi, he, hp⟩
    refine ⟨hi, hj, he.symm, ?_⟩
    rw [he]; exact hp

theorem selfCond_diag (s : List Char) (i j : Nat) (h : selfCond s i j) :
    selfCond s i i := by
  refine ⟨h.1, h.1, rfl, ?_⟩
  rw [h.2.2.1]; exact h.2.2.2

theorem selfR_zero_of_not (s : List Char) (i j : Nat) (h : ¬ selfCond s i j) :
    selfR s i j = 0 := by
  rcases i with _ | i
  · rw [selfR, if_neg h]
  · rcases j with _ | j
    · rw [selfR, if_neg h]
    · rw [selfR, if_neg h]

theorem selfR_symm (s : List Char) : ∀ i j, selfR s i j = selfR s j i := by
  intro i
  induction i with
  | zero =>
      intro j
      rcases j with _ | j
      · rfl
      · rw [selfR, selfR]
        exact if_congr (selfCond_symm s 0 (j + 1)) rfl rfl
  | succ i ih =>
      intro j
      rcases j with _ | j
      · rw [selfR, selfR]
        exact if_congr (selfCond_symm s (i + 1) 0) rfl rfl
      · rw [selfR, selfR, ih j]
        exact if_congr (selfCond_symm s (i + 1) (j + 1)) rfl rfl

theorem selfR_le_diag (s : List Char) : ∀ i j, selfR s i j ≤ selfR s i i := by
  intro i
  induction i with
  | zero =>
      intro j
      rcases j with _ | j
      · exact le_refl _
      · rw [selfR, selfR]
        by_cases h : selfCond s 0 (j + 1)
        · rw [if_pos h, if_pos (selfCond_diag s 0 (j + 1) h)]
        · rw [if_neg h]; exact Nat.zero_le _
  | succ i ih =>
      intro j
      rcases j with _ | j
      · rw [selfR]
        by_cases h : selfCond s (i + 1) 0
        · rw [if_pos h]
          have hd := selfCond_diag s (i + 1) 0 h
          rw [selfR, if_pos hd]
          exact Nat.le_add_left 1 _
        · rw [if_neg h]; exact Nat.zero_le _
      · rw [selfR]
        by_cases h : selfCond s (i + 1) (j + 1)
        · rw [if_pos h]
          have hd := selfCond_diag s (i + 1) (j + 1) h
          rw [selfR, if_pos hd]
          exact Nat.succ_le_succ (ih j)
        · rw [if_neg h]; exact Nat.zero_le _

theorem selfR_le (s : List Char) : ∀ i j, selfR s i j ≤ i + 1 := by
  intro i
  induction i with
  | zero =>
      intro j
      rcases j with _ | j
      · rw [selfR]; split <;> omega
      · rw [selfR]; split <;> omega
  | succ i ih =>
      intro j
      rcases j with _ | j
      · rw [selfR]; split <;> omega
      · rw [selfR]
        by_cases h : selfCond s (i + 1) (j + 1)
        · rw [if_pos h]
          exact Nat.succ_le_succ (ih j)
        · rw [if_neg h]; omega

theorem kOf_eq_selfR (s : List Char) (r j : Nat) (o : Nat → Nat)
    (ho : ∀ x < s.length, o x = prevR s r x) (hc : selfCond s r j) :
    kOf o j = selfR s r j := by
  rcases j with _ | j
  · have h1 : kOf o 0 = 1 := rfl
    rw [h1]
    rcases r with _ | r
    · rw [selfR, if_pos hc]
    · rw [selfR, if_pos hc]
  · have h1 : kOf o (j + 1) = o j + 1 := by
      unfold kOf
      rw [if_neg (Nat.succ_ne_zero j), Nat.add_sub_cancel]
    have hj : j < s.length := Nat.lt_of_succ_lt hc.2.1
    rw [h1, ho j hj]
    rcases r with _ | r
    · rw [selfR, if_pos hc]
      rfl
    · rw [selfR, if_pos hc]
      rfl

theorem flmInner_append (o : Nat → Nat) (i : Nat) (X : List Nat) :
    ∀ (Y : List Nat) (st : Nat × Nat × Nat × (Nat → Nat)),
      flmInner o i (X ++ Y) st = flmInner o i Y (flmInner o i X st) := by
  induction X with
  | nil => intro Y st; rfl
  | cons x X ih =>
      intro Y st
      obtain ⟨bi, bj, bs, nj⟩ := st
      simp only [List.cons_append, flmInner]
      by_cases h : bs < kOf o x
      · rw [if_pos h, if_pos h]
        exact ih Y _
      · rw [if_neg h, if_neg h]
        exact ih Y _

theorem flmInner_noupdate (o : Nat → Nat) (i : Nat) :
    ∀ (L : List Nat) (bi bj bs : Nat) (nj : Nat → Nat),
      (∀ j ∈ L, kOf o j ≤ bs) →
      flmInner o i L (bi, bj, bs, nj)
        = (bi, bj, bs, fun x => if x ∈ L then kOf o x else nj x) := by
  intro L
  induction L with
  | nil =>
      intro bi bj bs nj _
      have hfun : (fun x => if x ∈ ([] : List Nat) then kOf o x else nj x) = nj :=
        funext fun x => by simp
      rw [hfun]
      rfl
  | cons j L ih =>
      intro bi bj bs nj h
      simp only [flmInner]
      rw [if_neg (not_lt.mpr (h j (List.mem_cons_self j L)))]
      rw [ih bi bj bs _ (fun x hx => h x (List.mem_cons_of_mem j hx))]
      refine congrArg (fun f => (bi, bj, bs, f)) (funext fun x => ?_)
      by_cases hxL : x ∈ L
      · rw [if_pos hxL, if_pos (List.mem_cons_of_mem j hxL)]
      · by_cases hxj : x = j
        · subst hxj
          rw [if_neg hxL, if_pos rfl, if_pos (List.mem_cons_self x L)]
        · rw [if_neg hxL, if_neg hxj,
            if_neg (fun hm => (List.mem_cons.mp hm).elim hxj hxL)]

theorem rowJs_popular (s : List Char) (r : Nat)
    (hpop : bpopular s (s.getD r ' ') = true) :
    (b2jList s (s.getD r ' ')).filter
      (fun j => decide (0 ≤ j) && decide (j < s.length)) = [] := by
  unfold b2jList
  rw [if_pos hpop]
  rfl

theorem mem_rowJs (s : List Char) (r : Nat) (hr : r < s.length)
    (hpop : bpopular s (s.getD r ' ') = false) (j : Nat) :
    (j ∈ (b2jList s (s.getD r ' ')).filter
      (fun j => decide (0 ≤ j) && decide (j < s.length))) ↔ selfCond s r j := by
  unfold b2jList
  rw [if_neg (by rw [hpop]; exact Bool.false_ne_true)]
  rw [List.mem_filter, List.mem_filter, List.mem_range]
  constructor
  · rintro ⟨⟨hjn, hbeq⟩, _⟩
    have he : s.getD j ' ' = s.getD r ' ' := beq_iff_eq.mp hbeq
    refine ⟨hr, hjn, he.symm, ?_⟩
    rw [he]; exact hpop
  · rintro ⟨_, hjn, he, _⟩
    refine ⟨⟨hjn, beq_iff_eq.mpr he.symm⟩, ?_⟩
    simp [hjn]

theorem rowJs_decomp (s : List Char) (r : Nat) (hr : r < s.length)
    (hpop : bpopular s (s.getD r ' ') = false) :
    ∃ A B : List Nat,
      (b2jList s (s.getD r ' ')).filter
          (fun j => decide (0 ≤ j) && decide (j < s.length)) = A ++ r :: B ∧
      (∀ j ∈ A, j < r ∧ selfCond s r j) ∧ (∀ j ∈ B, selfCond s r j) := by
  have hcondQ : ∀ j, ((fun a => (decide (0 ≤ a) && decide (a < s.length))
      && (s.getD a ' ' == s.getD r ' ')) j = true) → selfCond s r j := by
    intro j hQ
    simp only [Bool.and_eq_true, decide_eq_true_eq, beq_iff_eq] at hQ
    obtain ⟨⟨_, hjn⟩, he⟩ := hQ
    refine ⟨hr, hjn, he.symm, ?_⟩
    rw [he]; exact hpop
  unfold b2jList
  rw [if_neg (by rw [hpop]; exact Bool.false_ne_true)]
  rw [List.filter_filter]
  have hsplit : List.range s.length
      = List.range' 0 r ++ r :: List.range' (r + 1) (s.length - r - 1) := by
    obtain ⟨d, hd⟩ : ∃ d, s.length = r + (d + 1) := ⟨s.length - r - 1, by omega⟩
    rw [hd, show r + (d + 1) - r - 1 = d from by omega, List.range_eq_range']
    rw [← List.range'_succ r d 1]
    have h1 := List.range'_append 0 r (d + 1) 1
    rw [show (0 + 1 * r) = r from by omega,
      show (d + 1) + r = r + (d + 1) from by omega] at h1
    rw [h1]
  have hQr : ((decide (0 ≤ r) && decide (r < s.length))
      && (s.getD r ' ' == s.getD r ' ')) = true := by
    simp [hr]
  rw [hsplit, List.filter_append, List.filter_cons]
  rw [if_pos hQr]
  refine ⟨_, _, rfl, ?_, ?_⟩
  · intro j hj
    rw [List.mem_filter] at hj
    have hjr : j < r := by
      have := List.mem_range'_1.mp hj.1
      omega
    exact ⟨hjr, hcondQ j hj.2⟩
  · intro j hj
    rw [List.mem_filter] at hj
    exact hcondQ j hj.2

theorem flmStep_inv (s : List Char) (r : Nat) (hr : r < s.length)
    (bi bj bs : Nat) (o : Nat → Nat)
    (hinv : rowInv s r (bi, bj, bs, o)) :
    rowInv s (r + 1) (flmStep s s 0 s.length (bi, bj, bs, o) r) := by
  obtain ⟨hbij, hbis, hdiag, hj2⟩ := hinv
  subst hbij
  simp only [flmStep]
  by_cases hpop : bpopular s (s.getD r ' ') = true
  · rw [rowJs_popular s r hpop]
    have hnc : ∀ j, ¬ selfCond s r j := by
      intro j hc
      have h2 := hc.2.2.2
      rw [← hc.2.2.1] at h2
      rw [hpop] at h2
      exact Bool.noConfusion h2
    refine ⟨rfl, by omega, ?_, ?_⟩
    · intro i' hi'
      rcases Nat.lt_succ_iff_lt_or_eq.mp hi' with h | h
      · exact hdiag i' h
      · subst h
        rw [selfR_zero_of_not s i' i' (hnc i')]
        exact Nat.zero_le bs
    · intro j hj
      show (0 : Nat) = prevR s (r + 1) j
      rw [prevR, selfR_zero_of_not s r j (hnc j)]
  · have hpopf : bpopular s (s.getD r ' ') = false := by
      revert hpop; cases bpopular s (s.getD r ' ') <;> simp
    have hcrr : selfCond s r r := ⟨hr, hr, rfl, hpopf⟩
    obtain ⟨A, B, hAB, hA, hB⟩ := rowJs_decomp s r hr hpopf
    rw [hAB, flmInner_append o r A (r :: B) (bi, bi, bs, fun _ => 0)]
    have hAle : ∀ j ∈ A, kOf o j ≤ bs := by
      intro j hj
      rw [kOf_eq_selfR s r j o hj2 (hA j hj).2]
      calc selfR s r j = selfR s j r := selfR_symm s r j
        _ ≤ selfR s j j := selfR_le_diag s j r
        _ ≤ bs := hdiag j (hA j hj).1
    rw [flmInner_noupdate o r A bi bi bs _ hAle]
    have hkr : kOf o r = selfR s r r := kOf_eq_selfR s r r o hj2 hcrr
    have hBle : ∀ j ∈ B, kOf o j ≤ kOf o r := by
      intro j hj
      rw [kOf_eq_selfR s r j o hj2 (hB j hj), hkr]
      exact selfR_le_diag s r j
    have hF : ∀ j, j < s.length →
        (if j ∈ B then kOf o j
          else if j = r then kOf o r
          else if j ∈ A then kOf o j else (0 : Nat)) = prevR s (r + 1) j := by
      intro j hj
      rw [prevR]
      by_cases hjB : j ∈ B
      · rw [if_pos hjB]
        exact kOf_eq_selfR s r j o hj2 (hB j hjB)
      rw [if_neg hjB]
      by_cases hjr : j = r
      · subst hjr
        rw [if_pos rfl]
        exact kOf_eq_selfR s j j o hj2 hcrr
      rw [if_neg hjr]
      by_cases hjA : j ∈ A
      · rw [if_pos hjA]
        exact kOf_eq_selfR s r j o hj2 (hA j hjA).2
      rw [if_neg hjA]
      refine (selfR_zero_of_not s r j ?_).symm
      intro hc
      have hmem : j ∈ A ++ r :: B := by
        rw [← hAB]
        exact (mem_rowJs s r hr hpopf j).mpr hc
      rcases List.mem_append.mp hmem with h | h
      · exact hjA h
      · rcases List.mem_cons.mp h with h | h
        · exact hjr h
        · exact hjB h
    simp only [flmInner]
    by_cases hup : bs < kOf o r
    · rw [if_pos hup]
      rw [flmInner_noupdate o r B _ _ _ _ hBle]
      refine ⟨rfl, ?_, ?_, ?_⟩
      · have hk1 : kOf o r ≤ r + 1 := by rw [hkr]; exact selfR_le s r r
        omega
      · intro i' hi'
        rcases Nat.lt_succ_iff_lt_or_eq.mp hi' with h | h
        · exact le_trans (hdiag i' h) (le_of_lt hup)
        · subst h
          rw [hkr]
      · intro j hj
        show (if j ∈ B then kOf o j
            else if j = r then kOf o r
            else if j ∈ A then kOf o j else (0 : Nat)) = prevR s (r + 1) j
        exact hF j hj
    · rw [if_neg hup]
      rw [flmInner_noupdate o r B _ _ _ _ (fun j hj => le_trans (hBle j hj) (not_lt.mp hup))]
      refine ⟨rfl, by omega, ?_, ?_⟩
      · intro i' hi'
        rcases Nat.lt_succ_iff_lt_or_eq.mp hi' with h | h
        · exact hdiag i' h
        · subst h
          rw [← hkr]
          exact not_lt.mp hup
      · intro j hj
        show (if j ∈ B then kOf o j
            else if j = r then kOf o r
            else if j ∈ A then kOf o j else (0 : Nat)) = prevR s (r + 1) j
        exact hF j hj

theorem flmFold_inv (s : List Char) :
    ∀ (m r : Nat) (st : Nat × Nat × Nat × (Nat → Nat)),
      r + m ≤ s.length → rowInv s r st →
      rowInv s (r + m) ((List.range' r m).foldl (flmStep s s 0 s.length) st) := by
  intro m
  induction m with
  | zero => intro r st _ hinv; exact hinv
  | succ m ih =>
      intro r st h hinv
      rw [List.range'_succ, List.foldl_cons]
      have h1 : rowInv s (r + 1) (flmStep s s 0 s.length st r) := by
        obtain ⟨bi, bj, bs, o⟩ := st
        exact flmStep_inv s r (by omega) bi bj bs o hinv
      have h2 := ih (r + 1) _ (by omega) h1
      rw [show r + 1 + m = r + (m + 1) from by omega] at h2
      exact h2

theorem flmMain_self (s : List Char) :
    ∃ bi bs, flmMain s s 0 s.length 0 s.length = (bi, bi, bs) ∧
      bi + bs ≤ s.length := by
  have h0 : rowInv s 0 (0, 0, 0, fun _ => 0) := by
    refine ⟨rfl, by omega, ?_, ?_⟩
    · intro i' hi'
      exact absurd hi' (Nat.not_lt_zero i')
    · intro j _
      rfl
  have h := flmFold_inv s s.length 0 (0, 0, 0, fun _ => 0) (by omega) h0
  unfold flmMain
  rw [Nat.sub_zero]
  rcases hfold : (List.range' 0 s.length).foldl (flmStep s s 0 s.length)
      (0, 0, 0, fun _ => 0) with ⟨bi, bj, bs, o2⟩
  rw [hfold] at h
  obtain ⟨hbij, hle, _, _⟩ := h
  subst hbij
  exact ⟨bi, bs, rfl, by omega⟩

theorem extendLo_self (s : List Char) :
    ∀ bi bs, extendLo s s 0 0 bi bi bs = (0, 0, bs + bi) := by
  intro bi
  induction bi with
  | zero => intro bs; rfl
  | succ bi ih =>
      intro bs
      have hcond : (decide (0 < bi + 1) && decide (0 < bi + 1)
          && (s.getD bi ' ' == s.getD (bi + 1 - 1) ' ')) = true := by
        simp
      rw [extendLo, if_pos hcond]
      have h2 : bi + 1 - 1 = bi := rfl
      rw [h2, ih (bs + 1), show bs + 1 + bi = bs + (bi + 1) from by omega]

theorem extendHi_self (s : List Char) :
    ∀ (fuel bs : Nat), bs ≤ s.length → s.length ≤ fuel + bs →
      extendHi s s s.length s.length 0 0 fuel bs = s.length := by
  intro fuel
  induction fuel with
  | zero =>
      intro bs h1 h2
      simp only [extendHi]
      omega
  | succ fuel ih =>
      intro bs h1 h2
      simp only [extendHi]
      by_cases hbs : bs < s.length
      · have hcond : (decide (0 + bs < s.length) && decide (0 + bs < s.length)
            && (s.getD (0 + bs) ' ' == s.getD (0 + bs) ' ')) = true := by
          simp [hbs]
        rw [if_pos hcond]
        exact ih (bs + 1) (by omega) (by omega)
      · have hcond : ¬((decide (0 + bs < s.length) && decide (0 + bs < s.length)
            && (s.getD (0 + bs) ' ' == s.getD (0 + bs) ' ')) = true) := by
          simp [hbs]
        rw [if_neg hcond]
        omega

theorem findLongestMatch_self (s : List Char) :
    findLongestMatch s s 0 s.length 0 s.length = (0, 0, s.length) := by
  obtain ⟨bi, bs, hmain, hle⟩ := flmMain_self s
  unfold findLongestMatch
  rw [hmain]
  show (match extendLo s s 0 0 bi bi bs with
    | (bi', bj', bs') => (bi', bj', extendHi s s s.length s.length bi' bj' s.length bs'))
      = (0, 0, s.length)
  rw [extendLo_self s bi bs]
  show (0, 0, extendHi s s s.length s.length 0 0 s.length (bs + bi)) = (0, 0, s.length)
  rw [extendHi_self s s.length (bs + bi) (by omega) (by omega)]

theorem matchingBlocksAux_nil_queue (a b : List Char) :
    ∀ (fuel : Nat) (acc : List (Nat × Nat × Nat)),
      matchingBlocksAux a b fuel [] acc = acc := by
  intro fuel acc
  cases fuel with
  | zero => rfl
  | succ f => rfl

theorem matchingBlocksAux_self (s : List Char) :
    ∀ (f : Nat) (acc : List (Nat × Nat × Nat)),
      matchingBlocksAux s s (f + 2) [(0, s.length, 0, s.length)] acc
        = if s.length = 0 then acc else acc ++ [(0, 0, s.length)] := by
  intro f acc
  simp only [matchingBlocksAux, findLongestMatch_self s]
  by_cases h0 : s.length = 0
  · rw [if_neg (by omega : ¬(s.length ≠ 0)), if_pos h0]
  · rw [if_pos h0, if_neg h0]
    rw [if_neg (by simp : ¬((decide (0 < 0) && decide (0 < 0)) = true))]
    rw [if_neg (by simp : ¬((decide (0 + s.length < s.length)
      && decide (0 + s.length < s.length)) = true))]
    exact matchingBlocksAux_nil_queue s s (f + 1) _

theorem matchTotal_self (s : List Char) : matchTotal s s = s.length := by
  by_cases h0 : s.length = 0
  · have hs : s = [] := List.length_eq_zero.mp h0
    subst hs
    rfl
  · unfold matchTotal matchingBlocks
    have h2 : 2 ≤ (s.length + 1) * (s.length + 1) := by
      calc 2 ≤ s.length + 1 := by omega
        _ ≤ (s.length + 1) * (s.length + 1) := Nat.le_mul_of_pos_right _ (by omega)
    obtain ⟨f, hf⟩ : ∃ f, (s.length + 1) * (s.length + 1) = f + 2 :=
      ⟨(s.length + 1) * (s.length + 1) - 2, by omega⟩
    rw [hf, matchingBlocksAux_self s f [], if_neg h0]
    simp

theorem ratioQ_self (s : List Char) : ratioQ s s = 1 := by
  unfold ratioQ
  by_cases h0 : s.length + s.length = 0
  · rw [if_pos h0]
  · rw [if_neg h0, matchTotal_self]
    have hn : (s.length : ℚ) + s.length ≠ 0 := by
      rw [← Nat.cast_add]
      exact Nat.cast_ne_zero.mpr h0
    rw [div_eq_one_iff_eq hn]
    ring

/-- C10: answer checking is reflexive: an answer identical to the oracle's
answer is always accepted, including when it normalizes to the empty string
(the ratio of two empty strings is 1). -/
theorem C10_reflexive (a : List Char) : is_answer_correct a a (4/5) = true := by
  unfold is_answer_correct
  rw [ratioQ_self, decide_eq_true_eq]
  norm_num

/-- C7 (amended): the similarity ratio is not symmetric in general; swapping
the arguments keeps the denominator, so the two ratios agree exactly when the
total matched-character counts of the two argument orders agree -- which can
fail (see the counterexample). -/
theorem C7_symm_iff_matches (a b : List Char) :
    ratioQ a b = ratioQ b a ↔ matchTotal a b = matchTotal b a := by
  unfold ratioQ
  by_cases h : a.length + b.length = 0
  · have ha : a = [] := List.length_eq_zero.mp (by omega)
    have hb : b = [] := List.length_eq_zero.mp (by omega)
    subst ha; subst hb
    simp
  · have h' : ¬(b.length + a.length = 0) := by omega
    rw [if_neg h, if_neg h']
    have hd : (a.length : ℚ) + b.length ≠ 0 := by
      rw [← Nat.cast_add]
      exact Nat.cast_ne_zero.mpr h
    constructor
    · intro heq
      rw [add_comm (b.length : ℚ)] at heq
      have h2 : (2 : ℚ) * (matchTotal a b : ℚ) = 2 * (matchTotal b a : ℚ) := by
        have := congrArg (fun x => x * ((a.length : ℚ) + b.length)) heq
        simpa [div_mul_cancel₀, hd] using this
      have h3 : (matchTotal a b : ℚ) = (matchTotal b a : ℚ) :=
        mul_left_cancel₀ two_ne_zero h2
      exact_mod_cast h3
    · intro heq
      rw [heq, add_comm (a.length : ℚ)]
